import Mathlib

/-!
Shallow embedding of the repotools package-mirror scripts
(`repotool.py`, `pkgtool.py`, `makedb.py`): the catalog data model, the
dependency-closure loop, the rebuild and reconciliation phases, and the
leaf / deletion-safety analyses, together with theorems settling the
specified properties of these operations.

Conventions: SQLite row ids and the `-1` unresolved sentinel are `Int`;
table rows are kept in physical (insertion) order, which is the order an
unindexed `SELECT` scans them in; the on-disk artifact directory is a
list of repo-relative paths; operations that can raise in Python return
an explicit error constructor here.
-/

namespace Repotools

/-- One row of the `packages` table created by `makedb.py` (lines
153-156).  `rowid` is SQLite's implicit surrogate key, assigned 1, 2,
... in insertion order.  Only the columns some analysed query reads are
modelled; the remaining scalar columns (comment, maintainer, www, abi,
arch, prefix, flatsize, path, licenselogic, desc) are carried by no
analysed operation and are omitted. -/
structure PkgRow where
  rowid : Int
  name : String
  origin : String
  version : String
  sum : String
  pkgsize : Nat
  repopath : String
deriving DecidableEq

/-- One row of the `deps` table (`makedb.py` line 158):
`deps (pkgid INT, name TEXT, origin TEXT, version TEXT, depid INT)`. -/
structure DepRow where
  pkgid : Int
  name : String
  origin : String
  version : String
  depid : Int
deriving DecidableEq

/-- The catalog database `packagesite.db`: the `packages` and `deps`
tables, rows in insertion order. -/
structure Catalog where
  packages : List PkgRow
  deps : List DepRow
deriving DecidableEq

/-- First-occurrence deduplication: each value is kept the first time it
is met.  Models the output of `SELECT DISTINCT` over an unindexed table
scan, and Python set construction from a list. -/
def dedupFirst {α : Type} [BEq α] (l : List α) : List α :=
  l.foldl (fun acc x => if acc.contains x then acc else acc ++ [x]) []

/-- `SELECT ... FROM packages WHERE name IS ?` followed by `fetchone()`:
the first packages row carrying the given name, if any. -/
def findByName (c : Catalog) (name : String) : Option PkgRow :=
  c.packages.find? (fun p => p.name == name)

/-- `SELECT rowid FROM packages WHERE name IS ?` + `fetchone()`
(`repotool.py` line 481). -/
def findRowid (c : Catalog) (name : String) : Option Int :=
  (findByName c name).map (fun p => p.rowid)

/-- `SELECT DISTINCT depid FROM deps WHERE pkgid IN (ids)`
(`repotool.py` lines 487-492). -/
def distinctDepids (c : Catalog) (ids : List Int) : List Int :=
  dedupFirst ((c.deps.filter (fun d => ids.contains d.pkgid)).map (fun d => d.depid))

/-- Outcome of `repotool.deps`: a normal return; the `TypeError` Python
raises when the name lookup produced `None` and line 490 subscripts it;
or exhaustion of the iteration budget (the loop is still running). -/
inductive DepsResult
  | ok (ids : List Int)
  | typeError
  | outOfFuel
deriving DecidableEq

/-- The `while len(newdeps) >= len(alldeps)` loop of `repotool.deps`
(lines 483-492), indexed by an iteration budget: each budget step is one
execution of the loop body (`alldeps += [j for j in newdeps if j not in
alldeps]` and the re-query of the distinct depids of `alldeps`). -/
def depsLoop (c : Catalog) : Nat → List Int → List Int → Option (List Int)
  | 0, _, _ => none
  | fuel + 1, alldeps, newdeps =>
    if alldeps.length ≤ newdeps.length then
      let alldeps2 := alldeps ++ newdeps.filter (fun j => !(alldeps.contains j))
      depsLoop c fuel alldeps2 (distinctDepids c alldeps2)
    else
      some alldeps

/-- Lines 493-495 of `repotool.py`: `rv = [pkgid]` followed by
`rv += [j for j in alldeps if j not in rv]`, applied to the loop's
outcome (an exhausted budget propagates). -/
def depsFinish (pkgid : Int) : Option (List Int) → DepsResult
  | none => DepsResult.outOfFuel
  | some alldeps =>
    DepsResult.ok ([pkgid] ++ alldeps.filter (fun j => !([pkgid].contains j)))

/-- `repotool.deps` (lines 471-495): look up the queried package's
rowid, run the expansion loop from the frontier `[pkgid]`, and build
`rv`.  When the name is absent the lookup yields `None` and the loop
body's `str(j[0])` raises `TypeError`. -/
def deps (fuel : Nat) (c : Catalog) (name : String) : DepsResult :=
  match findRowid c name with
  | none => DepsResult.typeError
  | some pkgid => depsFinish pkgid (depsLoop c fuel [] [pkgid])

/-- The `foo` row of the spec's §8 example catalog: rowid 1, no
dependencies. -/
def fooRow : PkgRow :=
  { rowid := 1, name := "foo", origin := "devel/foo", version := "1.0",
    sum := "aa11", pkgsize := 10, repopath := "All/foo-1.0.pkg" }

/-- The `bar` row of the example catalog: rowid 2. -/
def barRow : PkgRow :=
  { rowid := 2, name := "bar", origin := "devel/bar", version := "2.0",
    sum := "bb22", pkgsize := 20, repopath := "All/bar-2.0.pkg" }

/-- The example catalog's single dependency edge: `bar` depends on
`foo`, resolved to rowid 1. -/
def fooEdge : DepRow :=
  { pkgid := 2, name := "foo", origin := "devel/foo", version := "1.0",
    depid := 1 }

/-- The spec's §8 example catalog: `foo` (rowid 1, no dependencies) and
`bar` (rowid 2, one dependency edge on `foo`). -/
def exampleCat : Catalog :=
  { packages := [fooRow, barRow], deps := [fooEdge] }

/-- A two-package catalog whose dependency-edge relation is the cycle
A→B→A. -/
def cycCat : Catalog :=
  { packages :=
      [ { rowid := 1, name := "A", origin := "devel/A", version := "1.0",
          sum := "a1", pkgsize := 1, repopath := "All/A-1.0.pkg" },
        { rowid := 2, name := "B", origin := "devel/B", version := "1.0",
          sum := "b1", pkgsize := 2, repopath := "All/B-1.0.pkg" } ],
    deps :=
      [ { pkgid := 1, name := "B", origin := "devel/B", version := "1.0",
          depid := 2 },
        { pkgid := 2, name := "A", origin := "devel/A", version := "1.0",
          depid := 1 } ] }

/-- `deps` never returns, whatever iteration budget it is given. -/
def depsDiverges (c : Catalog) (name : String) : Prop :=
  ∀ fuel : Nat, deps fuel c name = DepsResult.outOfFuel

/-! ### Generic lemmas about the deduplicating fold -/

theorem foldl_dedup_nodup {α : Type} [BEq α] [LawfulBEq α] :
    ∀ (l acc : List α), acc.Nodup →
      (l.foldl (fun a x => if a.contains x then a else a ++ [x]) acc).Nodup := by
  intro l
  induction l with
  | nil => intro acc h; exact h
  | cons x xs ih =>
    intro acc h
    simp only [List.foldl_cons]
    by_cases hx : acc.contains x
    · rw [if_pos hx]
      exact ih acc h
    · rw [if_neg hx]
      apply ih
      rw [List.nodup_append]
      refine ⟨h, List.nodup_singleton x, ?_⟩
      intro a ha hax
      rw [List.mem_singleton] at hax
      subst hax
      exact hx (List.elem_iff.2 ha)

theorem mem_foldl_dedup {α : Type} [BEq α] [LawfulBEq α] (y : α) :
    ∀ (l acc : List α),
      y ∈ l.foldl (fun a x => if a.contains x then a else a ++ [x]) acc ↔
        y ∈ acc ∨ y ∈ l := by
  intro l
  induction l with
  | nil => simp
  | cons x xs ih =>
    intro acc
    simp only [List.foldl_cons]
    by_cases hx : acc.contains x
    · rw [if_pos hx, ih]
      constructor
      · rintro (h | h)
        · exact Or.inl h
        · exact Or.inr (List.mem_cons_of_mem x h)
      · rintro (h | h)
        · exact Or.inl h
        · rcases List.mem_cons.1 h with rfl | h
          · exact Or.inl (List.elem_iff.1 hx)
          · exact Or.inr h
    · rw [if_neg hx, ih]
      simp only [List.mem_append, List.mem_singleton, List.mem_cons]
      tauto

theorem dedupFirst_nodup {α : Type} [BEq α] [LawfulBEq α] (l : List α) :
    (dedupFirst l).Nodup :=
  foldl_dedup_nodup l [] List.nodup_nil

theorem mem_dedupFirst {α : Type} [BEq α] [LawfulBEq α] (y : α) (l : List α) :
    y ∈ dedupFirst l ↔ y ∈ l := by
  unfold dedupFirst
  rw [mem_foldl_dedup]
  simp

/-! ### Structure of the closure loop and its result -/

theorem depsLoop_nodup (c : Catalog) :
    ∀ (fuel : Nat) (alldeps newdeps l : List Int), alldeps.Nodup → newdeps.Nodup →
      depsLoop c fuel alldeps newdeps = some l → l.Nodup := by
  intro fuel
  induction fuel with
  | zero => intro alldeps newdeps l _ _ h; exact absurd h (by simp [depsLoop])
  | succ k ih =>
    intro alldeps newdeps l ha hn h
    rw [depsLoop] at h
    by_cases hguard : alldeps.length ≤ newdeps.length
    · rw [if_pos hguard] at h
      apply ih _ _ _ _ (dedupFirst_nodup _) h
      rw [List.nodup_append]
      refine ⟨ha, hn.filter _, ?_⟩
      intro a haa haf
      have hc := (List.mem_filter.1 haf).2
      simp only [Bool.not_eq_true'] at hc
      simp at hc
      exact hc haa
    · rw [if_neg hguard] at h
      cases h
      exact ha

theorem deps_of_findRowid (fuel : Nat) (c : Catalog) (name : String) (id : Int)
    (hfind : findRowid c name = some id) :
    deps fuel c name = depsFinish id (depsLoop c fuel [] [id]) := by
  unfold deps
  rw [hfind]

theorem deps_absent (fuel : Nat) (c : Catalog) (name : String)
    (hfind : findRowid c name = none) :
    deps fuel c name = DepsResult.typeError := by
  unfold deps
  rw [hfind]

/-! ### C1 and C2 -/

/-- C1: whenever the closure loop of `repotool.deps` returns, element 0
of its result is the queried package's rowid and each id appears exactly
once; a package that owns no dependency edge yields exactly `[own id]`
(with two loop iterations, whatever extra budget is given); and on the
spec's example catalog (`foo` rowid 1 without dependencies, `bar` rowid
2 depending on `foo`) the closure of `bar` is `[2, 1]` and the closure
of `foo` is `[1]`, ids listed in the order first discovered. -/
theorem c1_closure_head_nodup (c : Catalog) (name : String) (id : Int) (fuel : Nat)
    (l : List Int) (hfind : findRowid c name = some id) :
    (deps fuel c name = DepsResult.ok l → l.head? = some id ∧ l.Nodup) ∧
    ((∀ d ∈ c.deps, d.pkgid ≠ id) → deps (fuel + 2) c name = DepsResult.ok [id]) ∧
    deps 5 exampleCat "bar" = DepsResult.ok [2, 1] ∧
    deps 5 exampleCat "foo" = DepsResult.ok [1] := by
  refine ⟨?_, ?_, by decide, by decide⟩
  · intro h
    rw [deps_of_findRowid fuel c name id hfind] at h
    cases hloop : depsLoop c fuel [] [id] with
    | none => rw [hloop] at h; exact absurd h (by simp [depsFinish])
    | some alldeps =>
      rw [hloop] at h
      have hnd : alldeps.Nodup :=
        depsLoop_nodup c fuel [] [id] alldeps List.nodup_nil (List.nodup_singleton id) hloop
      unfold depsFinish at h
      have hl : l = [id] ++ alldeps.filter (fun j => !([id].contains j)) := by
        cases h; rfl
      subst hl
      constructor
      · rfl
      · rw [List.singleton_append, List.nodup_cons]
        refine ⟨?_, hnd.filter _⟩
        intro hmem
        have := (List.mem_filter.1 hmem).2
        simp at this
  · intro hnodeps
    have hdist : distinctDepids c [id] = [] := by
      unfold distinctDepids
      have hfil : c.deps.filter (fun d => [id].contains d.pkgid) = [] := by
        rw [List.filter_eq_nil_iff]
        intro d hd
        simp only [List.contains_cons, List.contains_nil, Bool.or_false,
          Bool.not_eq_true, beq_eq_false_iff_ne]
        exact hnodeps d hd
      rw [hfil]
      rfl
    have hstep1 : depsLoop c (fuel + 2) [] [id]
        = depsLoop c (fuel + 1) [id] (distinctDepids c [id]) := rfl
    have hloop : depsLoop c (fuel + 2) [] [id] = some [id] := by
      rw [hstep1, hdist]
      rfl
    rw [deps_of_findRowid (fuel + 2) c name id hfind, hloop]
    unfold depsFinish
    simp

/-- Witness for C1 at the example catalog: instantiated at `foo`
(rowid 1), which owns no dependency edge, with budget 5 and result
`[1]`. -/
theorem c1_closure_head_nodup_witness :
    (deps 5 exampleCat "foo" = DepsResult.ok [1] →
      ([1] : List Int).head? = some 1 ∧ ([1] : List Int).Nodup) ∧
    ((∀ d ∈ exampleCat.deps, d.pkgid ≠ 1) →
      deps (5 + 2) exampleCat "foo" = DepsResult.ok [1]) ∧
    deps 5 exampleCat "bar" = DepsResult.ok [2, 1] ∧
    deps 5 exampleCat "foo" = DepsResult.ok [1] :=
  c1_closure_head_nodup exampleCat "foo" 1 5 [1] (by decide)

theorem cyc_loop_fixed : ∀ fuel : Nat, depsLoop cycCat fuel [1, 2] [2, 1] = none := by
  intro fuel
  induction fuel with
  | zero => rfl
  | succ k ih => exact ih

/-- C2: on a catalog whose edge relation is the cycle A→B→A, the
`while len(newdeps) >= len(alldeps)` loop of `repotool.deps` never
terminates: once the accumulated list is `[1, 2]` the candidate list is
`[2, 1]` at every further round, the guard `2 >= 2` stays true, and the
state no longer changes, so `deps` on `A` runs out of any iteration
budget it is given instead of returning a finite sequence. -/
theorem c2_cycle_never_terminates :
    findRowid cycCat "A" = some 1 ∧ depsDiverges cycCat "A" := by
  refine ⟨by decide, ?_⟩
  intro fuel
  match fuel with
  | 0 => rfl
  | 1 => rfl
  | (n + 2) =>
    have h : depsLoop cycCat (n + 2) [] [1] = none := cyc_loop_fixed n
    rw [deps_of_findRowid (n + 2) cycCat "A" 1 (by decide), h]
    rfl

/-! ### makedb: the full catalog rebuild -/

/-- One parsed manifest of the bulk `packagesite.yaml` feed: the scalar
fields some analysed operation reads, plus the `deps` mapping flattened
to `(depname, origin, version)` triples in iteration order.  The other
scalar fields and the optional collections (licenses, categories,
shlibs, options, annotations) feed tables no analysed query touches and
are omitted. -/
structure Manifest where
  name : String
  origin : String
  version : String
  sum : String
  pkgsize : Nat
  repopath : String
  mdeps : List (String × String × String)
deriving DecidableEq

/-- The packages row `insert_pkg` (`makedb.py` lines 58-86) produces for
a manifest, under the rowid SQLite assigns to the insert. -/
def manifestRow (rid : Int) (m : Manifest) : PkgRow :=
  { rowid := rid, name := m.name, origin := m.origin, version := m.version,
    sum := m.sum, pkgsize := m.pkgsize, repopath := m.repopath }

/-- Phase one of the rebuild (lines 169-172): insert every manifest of
the feed in feed order, rowids counting up from `rid`.  The
`CREATE TABLE packages` statement (lines 153-156) declares no
uniqueness constraint, so every insert succeeds, manifests with
repeated names included. -/
def loadPackagesFrom (rid : Int) : List Manifest → List PkgRow
  | [] => []
  | m :: ms => manifestRow rid m :: loadPackagesFrom (rid + 1) ms

/-- The packages table after phase one: rowids 1, 2, ... -/
def loadPackages (ms : List Manifest) : List PkgRow :=
  loadPackagesFrom 1 ms

/-- `idbyname = dict(cur.execute("SELECT name, rowid FROM packages"))`
with `idbyname.get(name, -1)` (lines 224 and 229): a Python dict built
from (name, rowid) pairs keeps the last pair for a repeated key, so the
lookup yields the rowid of the last row carrying the name, defaulting
to the unresolved sentinel -1. -/
def idbynameGet (pkgs : List PkgRow) (n : String) : Int :=
  match pkgs.reverse.find? (fun p => p.name == n) with
  | some p => p.rowid
  | none => -1

/-- The deps rows the resolution phase (lines 225-233) inserts for one
manifest: one row per entry of its `deps` mapping, owner and target
both resolved through the name→id dict over the full packages table. -/
def edgesFor (pkgs : List PkgRow) (m : Manifest) : List DepRow :=
  m.mdeps.map (fun d =>
    { pkgid := idbynameGet pkgs m.name, name := d.1, origin := d.2.1,
      version := d.2.2, depid := idbynameGet pkgs d.1 })

/-- Phase two of the rebuild (lines 222-235): only after every package
row is present are the dependency edges resolved and inserted. -/
def resolveDeps (pkgs : List PkgRow) (ms : List Manifest) : List DepRow :=
  (ms.map (edgesFor pkgs)).flatten

/-- The full catalog rebuild of `makedb.py` (`__main__`) on a bulk
feed, with no pre-existing artifact needing ingestion (the
reconciliation loop over `repo/All/*.pkg` then appends no manifest):
phase one inserts all package rows, phase two all edges. -/
def buildDb (ms : List Manifest) : Catalog :=
  { packages := loadPackages ms, deps := resolveDeps (loadPackages ms) ms }

theorem loadPackagesFrom_rowid_le :
    ∀ (ms : List Manifest) (rid : Int) (p : PkgRow),
      p ∈ loadPackagesFrom rid ms → rid ≤ p.rowid := by
  intro ms
  induction ms with
  | nil => intro rid p hp; exact absurd hp (by simp [loadPackagesFrom])
  | cons m ms ih =>
    intro rid p hp
    rcases List.mem_cons.1 hp with rfl | hp
    · exact le_refl _
    · have := ih (rid + 1) p hp
      omega

theorem loadPackagesFrom_length :
    ∀ (ms : List Manifest) (rid : Int),
      (loadPackagesFrom rid ms).length = ms.length := by
  intro ms
  induction ms with
  | nil => intro rid; rfl
  | cons m ms ih => intro rid; simp [loadPackagesFrom, ih]

theorem idbynameGet_spec (pkgs : List PkgRow) (n : String) :
    (∃ p ∈ pkgs, p.name = n ∧ idbynameGet pkgs n = p.rowid) ∨
    ((∀ p ∈ pkgs, p.name ≠ n) ∧ idbynameGet pkgs n = -1) := by
  unfold idbynameGet
  cases hf : pkgs.reverse.find? (fun p => p.name == n) with
  | some p =>
    left
    have hmem : p ∈ pkgs.reverse := List.mem_of_find?_eq_some hf
    have hname := List.find?_some hf
    exact ⟨p, List.mem_reverse.1 hmem, by simpa using hname, rfl⟩
  | none =>
    right
    refine ⟨?_, rfl⟩
    intro p hp
    have := List.find?_eq_none.1 hf p (List.mem_reverse.2 hp)
    simpa using this

theorem mem_resolveDeps_depid (ms : List Manifest) (pkgs : List PkgRow) (r : DepRow)
    (hr : r ∈ resolveDeps pkgs ms) : r.depid = idbynameGet pkgs r.name := by
  unfold resolveDeps at hr
  rw [List.mem_flatten] at hr
  obtain ⟨rows, hrows, hrrows⟩ := hr
  rw [List.mem_map] at hrows
  obtain ⟨m, _, rfl⟩ := hrows
  unfold edgesFor at hrrows
  rw [List.mem_map] at hrrows
  obtain ⟨d, _, rfl⟩ := hrrows
  rfl

/-! ### C3: two-phase edge resolution -/

/-- C3: after a full rebuild every deps row is resolved against the
complete packages table: its depid is the rowid of a packages row
carrying the edge's dependency name whenever one exists — forward
references included, since edges are inserted only in the second phase
— and the unresolved sentinel -1 otherwise; every assigned rowid is at
least 1, so a resolved depid is never the sentinel. -/
theorem c3_two_phase_resolution (ms : List Manifest) (r : DepRow)
    (hr : r ∈ (buildDb ms).deps) :
    (∀ p ∈ (buildDb ms).packages, 1 ≤ p.rowid) ∧
    ((∃ p ∈ (buildDb ms).packages, p.name = r.name) →
      ∃ p ∈ (buildDb ms).packages, p.name = r.name ∧ r.depid = p.rowid) ∧
    ((∀ p ∈ (buildDb ms).packages, p.name ≠ r.name) → r.depid = -1) := by
  have hdep : r.depid = idbynameGet (loadPackages ms) r.name :=
    mem_resolveDeps_depid ms (loadPackages ms) r hr
  refine ⟨fun p hp => loadPackagesFrom_rowid_le ms 1 p hp, ?_, ?_⟩
  · intro hex
    rcases idbynameGet_spec (loadPackages ms) r.name with ⟨p, hp, hpn, hid⟩ | ⟨hnone, _⟩
    · exact ⟨p, hp, hpn, by rw [hdep, hid]⟩
    · obtain ⟨q, hq, hqn⟩ := hex
      exact absurd hqn (hnone q hq)
  · intro hnone
    rcases idbynameGet_spec (loadPackages ms) r.name with ⟨p, hp, hpn, _⟩ | ⟨_, hid⟩
    · exact absurd hpn (hnone p hp)
    · rw [hdep, hid]

/-- A bulk feed in which `bar` names its dependency `foo` before `foo`
is inserted: the forward reference of the spec's two-phase argument. -/
def fwdFeed : List Manifest :=
  [ { name := "bar", origin := "devel/bar", version := "2.0", sum := "bb22",
      pkgsize := 20, repopath := "All/bar-2.0.pkg",
      mdeps := [("foo", "devel/foo", "1.0")] },
    { name := "foo", origin := "devel/foo", version := "1.0", sum := "aa11",
      pkgsize := 10, repopath := "All/foo-1.0.pkg", mdeps := [] } ]

/-- The single deps row the rebuild of `fwdFeed` produces: owner `bar`
(rowid 1), dependency name `foo`, resolved forward to rowid 2. -/
def fwdRow : DepRow :=
  { pkgid := 1, name := "foo", origin := "devel/foo", version := "1.0", depid := 2 }

/-- Witness for C3 on the forward-reference feed. -/
theorem c3_two_phase_resolution_witness :
    (∀ p ∈ (buildDb fwdFeed).packages, 1 ≤ p.rowid) ∧
    ((∃ p ∈ (buildDb fwdFeed).packages, p.name = fwdRow.name) →
      ∃ p ∈ (buildDb fwdFeed).packages, p.name = fwdRow.name ∧ fwdRow.depid = p.rowid) ∧
    ((∀ p ∈ (buildDb fwdFeed).packages, p.name ≠ fwdRow.name) → fwdRow.depid = -1) :=
  c3_two_phase_resolution fwdFeed fwdRow (by decide)

/-! ### C7: duplicate names in a bulk feed -/

/-- A bulk feed carrying two manifests named `x` (and a third package
depending on `x`). -/
def dupFeed : List Manifest :=
  [ { name := "x", origin := "devel/x", version := "1.0", sum := "x1",
      pkgsize := 1, repopath := "All/x-1.0.pkg", mdeps := [] },
    { name := "x", origin := "devel/x", version := "2.0", sum := "x2",
      pkgsize := 2, repopath := "All/x-2.0.pkg", mdeps := [] },
    { name := "y", origin := "devel/y", version := "1.0", sum := "y1",
      pkgsize := 3, repopath := "All/y-1.0.pkg",
      mdeps := [("x", "devel/x", "2.0")] } ]

/-- C7 counterexample: a bulk feed with two manifests sharing the name
`x` loads both — `CREATE TABLE packages` declares no uniqueness
constraint, so no load error exists and the two rows coexist in the
rebuilt catalog. -/
theorem c7_duplicate_names_coexist :
    ((buildDb dupFeed).packages.filter (fun p => p.name == "x")).length = 2 := by
  decide

/-- C7 amended: the bulk load enforces no name uniqueness: it inserts
one packages row per manifest of the feed, duplicates included (n
manifests always yield n rows), and dependency resolution then keys a
duplicated name to the last-inserted row's id. -/
theorem c7_bulk_load_accepts_duplicates :
    (∀ ms : List Manifest, (buildDb ms).packages.length = ms.length) ∧
    (buildDb dupFeed).packages.map (fun p => (p.name, p.rowid))
        = [("x", 1), ("x", 2), ("y", 3)] ∧
    idbynameGet (buildDb dupFeed).packages "x" = 2 := by
  refine ⟨?_, by decide, by decide⟩
  intro ms
  exact loadPackagesFrom_length ms 1

/-! ### Drift classification: cmd_upgrade and the reconciliation loop -/

/-- An on-disk package artifact under `repo/All/`, as the tools observe
it: `name` and `version` parsed from the filename (`pkgname[9:-4]`
strips the directory prefix and the `.pkg` suffix, `rsplit("-", 1)`
splits at the last hyphen), `pkgsize` from `os.path.getsize`, `sum` the
sha256 hex digest of the file's contents, `repopath` its repo-relative
path. -/
structure Artifact where
  name : String
  version : String
  pkgsize : Nat
  sum : String
  repopath : String
deriving DecidableEq

inductive UpgradeAction
  | notInDb
  | refetch
  | keep
deriving DecidableEq

/-- What `repotool.cmd_upgrade` (lines 361-384) does with one on-disk
artifact: look its name up and re-fetch (remove the file, download the
recorded repopath) exactly when the recorded version or the recorded
pkgsize differs; the file's contents — hence its checksum — are never
read by this command. -/
def upgradeAction (c : Catalog) (a : Artifact) : UpgradeAction :=
  match findByName c a.name with
  | none => UpgradeAction.notInDb
  | some p =>
    if p.version ≠ a.version ∨ p.pkgsize ≠ a.pkgsize then UpgradeAction.refetch
    else UpgradeAction.keep

inductive ReconAction
  | addNew
  | refetch (reasons : List String)
  | keep
deriving DecidableEq

/-- The drift reasons the reconciliation loop of `makedb.py` collects
for a known artifact (lines 207-213), in source order: version,
checksum, size. -/
def reconReasons (p : PkgRow) (a : Artifact) : List String :=
  (if p.version ≠ a.version then ["version"] else []) ++
  (if p.sum ≠ a.sum then ["checksum"] else []) ++
  (if p.pkgsize ≠ a.pkgsize then ["size"] else [])

/-- What the reconciliation loop of `makedb.py` (lines 178-219) does
with one on-disk artifact: an unknown name is ingested from the
artifact's own manifest; a known name is removed and re-downloaded when
any of version, checksum (sha256 of the file's bytes) or size drifted
from the recorded row; otherwise nothing. -/
def reconAction (c : Catalog) (a : Artifact) : ReconAction :=
  match findByName c a.name with
  | none => ReconAction.addNew
  | some p =>
    if reconReasons p a = [] then ReconAction.keep
    else ReconAction.refetch (reconReasons p a)

/-- The catalog row of the C5 scenario. -/
def c5row : PkgRow :=
  { rowid := 1, name := "p", origin := "devel/p", version := "1.0",
    sum := "aaaa", pkgsize := 10, repopath := "All/p-1.0.pkg" }

/-- A catalog with the single package `p`. -/
def c5cat : Catalog :=
  { packages := [c5row], deps := [] }

/-- An artifact for `p` agreeing with the catalog on version and size
but rewritten in place: its content hash differs. -/
def c5art : Artifact :=
  { name := "p", version := "1.0", pkgsize := 10, sum := "bbbb",
    repopath := "All/p-1.0.pkg" }

/-- C5 counterexample: on an artifact whose filename version and byte
size match the recorded row but whose content hash differs,
`cmd_upgrade` takes no action at all — it never reads the file, so the
claimed re-fetch does not happen there. -/
theorem c5_upgrade_ignores_checksum :
    (∃ p ∈ c5cat.packages, p.name = c5art.name ∧ p.version = c5art.version ∧
      p.pkgsize = c5art.pkgsize ∧ p.sum ≠ c5art.sum) ∧
    upgradeAction c5cat c5art = UpgradeAction.keep := by
  decide

/-- C5 amended: checksum-only drift (version and size equal, content
hash different) is classified as drift and re-fetched by the makedb
reconciliation loop, with "checksum" as the sole reason; the repotool
upgrade command compares only version and size and leaves such an
artifact in place. -/
theorem c5_checksum_drift_split (c : Catalog) (a : Artifact) (p : PkgRow)
    (hfind : findByName c a.name = some p)
    (hver : p.version = a.version) (hsize : p.pkgsize = a.pkgsize)
    (hsum : p.sum ≠ a.sum) :
    reconAction c a = ReconAction.refetch ["checksum"] ∧
    upgradeAction c a = UpgradeAction.keep := by
  have hreasons : reconReasons p a = ["checksum"] := by
    unfold reconReasons
    rw [if_neg (by simp [hver]), if_pos hsum, if_neg (by simp [hsize])]
    rfl
  constructor
  · have hrec : reconAction c a = if reconReasons p a = [] then ReconAction.keep
        else ReconAction.refetch (reconReasons p a) := by
      unfold reconAction
      rw [hfind]
    rw [hrec, hreasons]
    simp
  · have hup : upgradeAction c a = if p.version ≠ a.version ∨ p.pkgsize ≠ a.pkgsize
        then UpgradeAction.refetch else UpgradeAction.keep := by
      unfold upgradeAction
      rw [hfind]
    rw [hup, if_neg (by push_neg; exact ⟨hver, hsize⟩)]

/-- Witness for C5's amended statement on the concrete scenario. -/
theorem c5_checksum_drift_split_witness :
    reconAction c5cat c5art = ReconAction.refetch ["checksum"] ∧
    upgradeAction c5cat c5art = UpgradeAction.keep :=
  c5_checksum_drift_split c5cat c5art c5row (by decide) (by decide) (by decide)
    (by decide)

/-! ### cmd_leaves: the leaf analyzer (repotool.py lines 328-358) -/

/-- `pkgdict = dict(cur.execute("SELECT repopath, rowid FROM packages"))`
with `pkgdict.get(n)` (lines 336-338): for a repeated repopath the dict
keeps the last pair; a path with no row yields Python `None`. -/
def pkgdictGet (pkgs : List PkgRow) (rp : String) : Option Int :=
  (pkgs.reverse.find? (fun p => p.repopath == rp)).map (fun p => p.rowid)

/-- The set `presentpkgs` (line 338) before the `remove`: each on-disk
artifact path (the glob over `PKGDIR`, rewritten to its `All/...`
repopath) resolved through the dict, first occurrences kept. -/
def presentLookups (c : Catalog) (disk : List String) : List (Option Int) :=
  dedupFirst (disk.map (fun n => pkgdictGet c.packages n))

/-- Lines 340-348: a present id is a leaf when no dependency edge
targets it whose owner is itself among the present ids. -/
def leavesOf (c : Catalog) (presentIds : List Int) : List Int :=
  presentIds.filter (fun p =>
    !(c.deps.any (fun d => d.depid == p && presentIds.contains d.pkgid)))

/-- `repotool.cmd_leaves` (lines 328-358) as a function of the catalog
and the artifact paths on disk.  `presentpkgs.remove((None,))` (line
339) is `set.remove`: it raises `KeyError` — modelled `none` — whenever
every lookup succeeded; otherwise the failed-lookup marker is dropped
and the leaf ids are computed.  (The code then prints the leaves'
artifact names in sorted order; the id set is what the analysis
decides.) -/
def cmd_leaves (c : Catalog) (disk : List String) : Option (List Int) :=
  if (presentLookups c disk).contains none then
    some (leavesOf c ((presentLookups c disk).filterMap (fun x => x)))
  else
    none

/-- C4: evaluation of `cmd_leaves` at the failing input and at
neighbouring inputs showing the intended leaf semantics.  With `foo`
and `bar` both on disk every artifact resolves, so the operation fails
(`KeyError` from `remove((None,))`) although `bar` is a leaf.  With an
artifact unknown to the catalog added, it returns exactly the claimed
set: `bar` (rowid 2) is the sole leaf while `foo` is protected by its
present depender; and with `bar`'s artifact absent, the edge from `bar`
no longer protects `foo`, which becomes the leaf. -/
theorem c4_leaves_all_known_fails :
    (["All/foo-1.0.pkg", "All/bar-2.0.pkg"].map
        (fun n => pkgdictGet exampleCat.packages n)) = [some 1, some 2] ∧
    cmd_leaves exampleCat ["All/foo-1.0.pkg", "All/bar-2.0.pkg"] = none ∧
    cmd_leaves exampleCat ["All/foo-1.0.pkg", "All/bar-2.0.pkg", "All/zz-1.pkg"]
        = some [2] ∧
    cmd_leaves exampleCat ["All/foo-1.0.pkg", "All/zz-1.pkg"] = some [1] := by
  decide

/-- C10: `cmd_leaves` produces a result exactly when some on-disk
artifact has no catalog row: the unconditional
`presentpkgs.remove((None,))` raises `KeyError` whenever every present
artifact resolved, and only the presence of a failed lookup lets the
analysis run. -/
theorem c10_leaves_requires_unknown_artifact (c : Catalog) (disk : List String) :
    (cmd_leaves c disk).isSome = true ↔
      none ∈ disk.map (fun n => pkgdictGet c.packages n) := by
  unfold cmd_leaves
  by_cases h : (presentLookups c disk).contains none
  · rw [if_pos h]
    simp only [Option.isSome_some, true_iff]
    have hm : (none : Option Int) ∈ presentLookups c disk := by simpa using h
    exact (mem_dedupFirst _ _).1 hm
  · rw [if_neg h]
    simp only [Option.isSome_none]
    constructor
    · intro hfalse
      exact Bool.noConfusion hfalse
    · intro hmem
      have hm : (none : Option Int) ∈ presentLookups c disk :=
        (mem_dedupFirst _ _).2 hmem
      exact absurd (by simpa using hm) h

/-! ### cmd_delete: the deletion safety checker (repotool.py lines 235-291) -/

inductive DeleteResult
  | notInDb
  | notInRepo
  | refused (blockers : List String)
  | permitted
deriving DecidableEq

/-- `SELECT name, repopath, rowid FROM packages WHERE rowid IN
(SELECT pkgid FROM deps WHERE depid IS ?)` (lines 265-269): the rows of
the packages that own an edge targeting the given rowid. -/
def dependersOn (c : Catalog) (rowid : Int) : List PkgRow :=
  c.packages.filter (fun q =>
    c.deps.any (fun d => d.depid == rowid && d.pkgid == q.rowid))

/-- Lines 271-275: dependers narrowed to those whose own artifact is on
disk. -/
def existingDependers (c : Catalog) (disk : List String) (rowid : Int) : List PkgRow :=
  (dependersOn c rowid).filter (fun q => disk.contains q.repopath)

/-- The deletion-safety decision of `repotool.cmd_delete` (lines
235-291): resolve the name (first row), require its artifact on disk,
and refuse — naming them — when any depender's artifact is also on
disk.  On `permitted` the code only reports the decision and the size
of the package's own closure: the actual file removal is a TODO left to
an external collaborator, so the decision is the whole effect. -/
def cmd_delete (c : Catalog) (disk : List String) (pkgname : String) : DeleteResult :=
  match findByName c pkgname with
  | none => DeleteResult.notInDb
  | some p =>
    if disk.contains p.repopath then
      if existingDependers c disk p.rowid = [] then DeleteResult.permitted
      else DeleteResult.refused ((existingDependers c disk p.rowid).map (fun q => q.name))
    else DeleteResult.notInRepo

/-- C6: when a package row `pA` owns a dependency edge targeting the
row the queried name resolves to and both artifacts are on disk, the
deletion is refused and `pA` is named among the blockers; on the
example catalog with both artifacts present, deleting the depender
`bar` is permitted, after which — its artifact gone — deleting `foo`
is permitted as well. -/
theorem c6_delete_refusal_names_blocker (c : Catalog) (disk : List String)
    (pkgname : String) (pB pA : PkgRow) (d : DepRow)
    (hB : findByName c pkgname = some pB)
    (hBdisk : disk.contains pB.repopath = true)
    (hA : pA ∈ c.packages) (hd : d ∈ c.deps)
    (hown : d.pkgid = pA.rowid) (htgt : d.depid = pB.rowid)
    (hAdisk : disk.contains pA.repopath = true) :
    (∃ bl, cmd_delete c disk pkgname = DeleteResult.refused bl ∧ pA.name ∈ bl) ∧
    cmd_delete exampleCat ["All/foo-1.0.pkg", "All/bar-2.0.pkg"] "bar"
        = DeleteResult.permitted ∧
    cmd_delete exampleCat ["All/foo-1.0.pkg"] "foo" = DeleteResult.permitted := by
  refine ⟨?_, by decide, by decide⟩
  have hmem : pA ∈ existingDependers c disk pB.rowid := by
    unfold existingDependers dependersOn
    rw [List.mem_filter]
    refine ⟨?_, hAdisk⟩
    rw [List.mem_filter]
    refine ⟨hA, ?_⟩
    rw [List.any_eq_true]
    exact ⟨d, hd, by rw [Bool.and_eq_true]; exact ⟨by simp [htgt], by simp [hown]⟩⟩
  have hne : existingDependers c disk pB.rowid ≠ [] := by
    intro hnil
    rw [hnil] at hmem
    exact absurd hmem (List.not_mem_nil _)
  refine ⟨(existingDependers c disk pB.rowid).map (fun q => q.name), ?_, ?_⟩
  · have hdel : cmd_delete c disk pkgname =
        if disk.contains pB.repopath then
          if existingDependers c disk pB.rowid = [] then DeleteResult.permitted
          else DeleteResult.refused
            ((existingDependers c disk pB.rowid).map (fun q => q.name))
        else DeleteResult.notInRepo := by
      unfold cmd_delete
      rw [hB]
    rw [hdel, if_pos hBdisk, if_neg hne]
  · exact List.mem_map.2 ⟨pA, hmem, rfl⟩

/-- Witness for C6: on the example catalog with both artifacts present,
deleting `foo` is refused and the blocker list names `bar`. -/
theorem c6_delete_refusal_names_blocker_witness :
    (∃ bl, cmd_delete exampleCat ["All/foo-1.0.pkg", "All/bar-2.0.pkg"] "foo"
        = DeleteResult.refused bl ∧ barRow.name ∈ bl) ∧
    cmd_delete exampleCat ["All/foo-1.0.pkg", "All/bar-2.0.pkg"] "bar"
        = DeleteResult.permitted ∧
    cmd_delete exampleCat ["All/foo-1.0.pkg"] "foo" = DeleteResult.permitted :=
  c6_delete_refusal_names_blocker exampleCat
    ["All/foo-1.0.pkg", "All/bar-2.0.pkg"] "foo" fooRow barRow fooEdge
    (by decide) (by decide) (by decide) (by decide) (by decide) (by decide)
    (by decide)

/-! ### C8: closure of a name absent from the catalog -/

/-- C8 counterexample: `deps` on a name absent from the example catalog
does not return a sequence headed by the unresolved sentinel: the name
lookup yields `None`, and the loop body raises `TypeError` the moment
it subscripts it. -/
theorem c8_absent_name_raises :
    findRowid exampleCat "qux" = none ∧
    deps 9 exampleCat "qux" = DepsResult.typeError := by
  decide

/-- C8 amended: for every name absent from the catalog `deps` fails
with `TypeError` instead of returning — the rowid lookup yields `None`
and building the IN-clause subscripts it; the callers catch the
exception and report the package as not in the database. -/
theorem c8_absent_name_type_error (c : Catalog) (name : String) (fuel : Nat)
    (hfind : findRowid c name = none) :
    deps fuel c name = DepsResult.typeError :=
  deps_absent fuel c name hfind

/-- Witness for C8's amended statement. -/
theorem c8_absent_name_type_error_witness :
    deps 7 exampleCat "zzz" = DepsResult.typeError :=
  c8_absent_name_type_error exampleCat "zzz" 7 (by decide)

/-! ### C9: commit granularity of the makedb pass -/

/-- One event of the makedb main program that matters to the durable
state: a filesystem operation on the database file (immediately
durable) or an SQLite operation on the open connection (a write is
volatile until the next `db.commit()`). -/
inductive DbEvent
  | removeFile
  | createFile
  | write (f : Catalog → Catalog)
  | commit

/-- Crash semantics of one event over (durable state, in-memory state):
`os.remove` (line 144) and the file creation by `sqlite3.connect`
(line 148) act on the durable file at once; a write changes only the
connection's view; `commit` makes that view durable.  `none` stands
for "no database file". -/
def dbStep : Option Catalog × Option Catalog → DbEvent → Option Catalog × Option Catalog
  | _, DbEvent.removeFile => (none, none)
  | _, DbEvent.createFile => (some { packages := [], deps := [] },
                              some { packages := [], deps := [] })
  | (dur, mem), DbEvent.write f => (dur, mem.map f)
  | (_, mem), DbEvent.commit => (mem, mem)

/-- The durable state an interruption exposes, at every point of an
event sequence (before the first event included). -/
def durableTrace (init : Option Catalog) (evs : List DbEvent) : List (Option Catalog) :=
  (evs.scanl dbStep (init, init)).map Prod.fst

/-- `INSERT INTO packages VALUES (...)` for one manifest (`insert_pkg`):
appends the row under the next rowid. -/
def insertPkgWrite (m : Manifest) (c : Catalog) : Catalog :=
  { c with packages := c.packages ++ [manifestRow ((c.packages.length : Int) + 1) m] }

/-- The dependency-resolution inserts for one manifest (lines 225-233),
resolved against the packages table as it stands at that point. -/
def insertEdgesWrite (m : Manifest) (c : Catalog) : Catalog :=
  { c with deps := c.deps ++ edgesFor c.packages m }

/-- The event sequence of one `makedb.py` run on a bulk feed with no
artifact needing ingestion: remove the old database file (line 144),
create the new one (line 148), create the tables and commit (lines
153-166), insert every package row and commit (lines 169-172), run the
— here empty — reconciliation loop and commit (lines 178-220), then
resolve and insert all edges and commit (lines 222-235). -/
def makedbEvents (ms : List Manifest) : List DbEvent :=
  [DbEvent.removeFile, DbEvent.createFile,
   DbEvent.write (fun _ => { packages := [], deps := [] }), DbEvent.commit]
  ++ ms.map (fun m => DbEvent.write (insertPkgWrite m))
  ++ [DbEvent.commit]
  ++ [DbEvent.commit]
  ++ ms.map (fun m => DbEvent.write (insertEdgesWrite m))
  ++ [DbEvent.commit]

/-- A pre-pass durable state: the catalog of a previous run. -/
def c9init : Option Catalog :=
  some { packages := [{ rowid := 1, name := "old", origin := "devel/old",
                        version := "0.9", sum := "oo", pkgsize := 5,
                        repopath := "All/old-0.9.pkg" }],
         deps := [] }

/-- The mid-pass durable state: all package rows loaded, deps table
still empty. -/
def c9mid : Option Catalog :=
  some { packages := loadPackages fwdFeed, deps := [] }

/-- C9 counterexample: interrupting the rebuild of the
forward-reference feed between the bulk-insert commit and the final
commit exposes a durable catalog with the packages loaded but no
dependency edges — neither the pre-pass state nor the fully-updated
one; and the pre-pass state is already unrecoverable right after the
upfront `os.remove`, whose no-database gap is also reachable. -/
theorem c9_partial_state_reachable :
    c9mid ∈ durableTrace c9init (makedbEvents fwdFeed) ∧
    c9mid ≠ c9init ∧
    c9mid ≠ some (buildDb fwdFeed) ∧
    (none : Option Catalog) ∈ durableTrace c9init (makedbEvents fwdFeed) := by
  decide

/-- C9 amended: the pass commits in per-phase batches rather than per
row or as one unit: on the forward-reference feed the reachable
durable states are exactly the pre-pass catalog, the no-database gap
after the upfront remove, the empty schema, the packages-only state —
never a state holding only part of the bulk insert's rows — and the
fully-updated catalog. -/
theorem c9_phase_batch_commits :
    durableTrace c9init (makedbEvents fwdFeed)
      = [c9init, none,
         some { packages := [], deps := [] },
         some { packages := [], deps := [] },
         some { packages := [], deps := [] },
         some { packages := [], deps := [] },
         some { packages := [], deps := [] },
         c9mid, c9mid, c9mid, c9mid,
         some (buildDb fwdFeed)] := by
  decide

end Repotools
